import Mathlib

/-!
Verification of the OCI-registry ownership validation engine
(`internal/validators/registries`, function `ValidateOCI` and its helpers
`parseImageReference`, `getDockerIoAuthToken`, `getSpecificManifest`,
`getImageConfig`), embedded shallowly in Lean 4.

The network is modelled as an environment mapping each outbound HTTP
request to either a transport error (with its message) or a response
consisting of a status code and a JSON body.  JSON decoding is modelled
abstractly: a body carries, for each Go struct the code decodes into, the
`Option` result of that decoding (`none` = `json.Decode` fails).  Every
helper returns its result together with the ordered list of HTTP requests
it issued, so that properties about which fetches happen (and with which
headers) are stated about that trace.
-/

deriving instance DecidableEq for Except

namespace Registries

/-! ### Character-level models of the Go `strings` helpers -/

/-- Model of Go `strings.HasPrefix` at the character level:
`listPrefixOf pat l` is true iff `pat` is a prefix of `l`. -/
def listPrefixOf : List Char → List Char → Bool
  | [], _ => true
  | _ :: _, [] => false
  | a :: as, b :: bs => a == b && listPrefixOf as bs

/-- Model of Go `strings.Contains` at the character level:
`listInfixOf pat l` is true iff `pat` occurs contiguously inside `l`. -/
def listInfixOf : List Char → List Char → Bool
  | pat, [] => pat.isEmpty
  | pat, b :: rest => listPrefixOf pat (b :: rest) || listInfixOf pat rest

/-- Model of Go `strings.HasPrefix` on strings. -/
def hasPrefix (s pat : String) : Bool := listPrefixOf pat.data s.data

/-- Model of Go `strings.Contains` on strings. -/
def containsSubstr (s pat : String) : Bool := listInfixOf pat.data s.data

/-- Splits a character list at every `'/'`, the character-level model of
Go `strings.Split(s, "/")`.  Never returns the empty list. -/
def splitSlashChars : List Char → List (List Char)
  | [] => [[]]
  | c :: rest =>
    if c = '/' then [] :: splitSlashChars rest
    else
      match splitSlashChars rest with
      | h :: t => (c :: h) :: t
      | [] => [[c]]

/-- Model of Go `strings.Split(s, "/")`. -/
def goSplitSlash (s : String) : List String :=
  (splitSlashChars s.data).map String.mk

/-! ### Data model (`pkg/model` and the structs of `oci.go`) -/

/-- The fields of `model.Package` that `ValidateOCI` reads. -/
structure Package where
  registryBaseURL : String
  identifier : String
  version : String
deriving DecidableEq

/-- One entry of `OCIManifest.Manifests` (a platform digest). -/
structure ManifestEntry where
  digest : String
deriving DecidableEq

/-- The `Config` field of `OCIManifest`. -/
structure ManifestConfig where
  digest : String
deriving DecidableEq

/-- Go struct `OCIManifest`: either a manifest list (non-empty `manifests`)
or a concrete manifest (its own `config.digest`). -/
structure OCIManifest where
  manifests : List ManifestEntry
  config : ManifestConfig
deriving DecidableEq

/-- Go struct `OCIImageConfig`: the labels of the image config blob
(`Config.Labels`); the Go `map[string]string` is modelled as an
association list queried with `List.lookup`. -/
structure OCIImageConfig where
  labels : List (String × String)
deriving DecidableEq

/-- Go struct `OCIAuthResponse`. -/
structure OCIAuthResponse where
  token : String
deriving DecidableEq

/-- An outbound HTTP GET request as the code builds it: the URL and the
three headers the code may set. -/
structure Request where
  url : String
  authorization : Option String
  accept : Option String
  userAgent : Option String
deriving DecidableEq

/-- A JSON response body, modelled by the result of decoding it into each
of the three Go struct types the code decodes into (`none` = the body is
not decodable into that struct, i.e. `json.Decode` returns an error). -/
structure JsonBody where
  asManifest : Option OCIManifest
  asImageConfig : Option OCIImageConfig
  asAuth : Option OCIAuthResponse
deriving DecidableEq

/-- An HTTP response: status code and body. -/
structure Response where
  status : Nat
  body : JsonBody
deriving DecidableEq

/-- The network environment: each request either fails at the transport
level (`Except.error` with the Go error message) or yields a response. -/
abbrev Env := Request → Except String Response

/-! ### Constants (`pkg/model/constants.go` and `oci.go`) -/

def RegistryURLDocker : String := "https://docker.io"
def RegistryURLGHCR : String := "https://ghcr.io"
def RegistryURLGAR : String := "https://artifactregistry.googleapis.com"
def RegistryURLGCR : String := "https://gcr.io"
def RegistryURLECR : String := "https://public.ecr.aws"
def RegistryURLACR : String := "https://azurecr.io"
def RegistryURLQuay : String := "https://quay.io"
def RegistryURLGitLabCR : String := "https://registry.gitlab.com"
def RegistryURLDockerHub : String := "https://hub.docker.com"
def RegistryURLJFrogCR : String := "https://jfrog.io"
def RegistryURLHarborCR : String := "https://goharbor.io"
def RegistryURLAlibabaACR : String := "https://cr.console.aliyun.com"
def RegistryURLIBMCR : String := "https://icr.io"
def RegistryURLOracleCR : String := "https://container-registry.oracle.com"
def RegistryURLDigitalOceanCR : String := "https://registry.digitalocean.com"

def dockerIoAPIBaseURL : String := "https://registry-1.docker.io"

/-- The Accept header of the first (tag-addressed) manifest fetch. -/
def manifestAcceptBoth : String :=
  "application/vnd.docker.distribution.manifest.v2+json,application/vnd.oci.image.manifest.v1+json"

/-- The Accept header of the platform-specific manifest fetch. -/
def ociManifestAccept : String := "application/vnd.oci.image.manifest.v1+json"

/-- The Accept header of the config blob fetch. -/
def dockerManifestAccept : String := "application/vnd.docker.distribution.manifest.v2+json"

def validatorUserAgent : String := "MCP-Registry-Validator/1.0"

/-- The required label key. -/
def serverNameLabelKey : String := "io.modelcontextprotocol.server.name"

/-! ### Errors

One constructor per `fmt.Errorf` call site of `oci.go`; `render` rebuilds
the exact Go error message (for the two JSON-decode failures the wrapped
`encoding/json` error text is not modelled, so `render` yields only the
code's own prefix there). -/

inductive OCIError where
  | unsupportedRegistry (baseURL : String)
  | invalidReference (identifier : String)
  | authRequestNetwork (msg : String)
  | authBadStatus (status : Nat)
  | authParseFailed
  | authFailed (inner : OCIError)
  | invalidRefWrap (inner : OCIError)
  | manifestNetwork (msg : String)
  | imageNotFound (ns repo tag : String) (status : Nat)
  | manifestBadStatus (status : Nat)
  | manifestParseFailed
  | specificNetwork (msg : String)
  | specificBadStatus (status : Nat)
  | specificParseFailed
  | specificWrap (inner : OCIError)
  | configDigestMissing (ns repo tag : String)
  | configNetwork (msg : String)
  | configBadStatus (status : Nat)
  | configParseFailed
  | configWrap (inner : OCIError)
  | missingLabel (ns repo tag serverName : String)
  | ownershipMismatch (expected actual : String)
deriving DecidableEq

/-- The Go error message of each error (`fmt.Errorf` format strings). -/
def render : OCIError → String
  | .unsupportedRegistry baseURL =>
      "unsupported OCI registry: '" ++ baseURL ++
      "'. Supported registries: docker.io, ghcr.io, gcr.io, quay.io, artifactregistry.googleapis.com"
  | .invalidReference identifier => "invalid image reference: " ++ identifier
  | .authRequestNetwork msg => "failed to request auth token: " ++ msg
  | .authBadStatus status => "auth request failed with status " ++ toString status
  | .authParseFailed => "failed to parse auth response: "
  | .authFailed inner => "failed to authenticate with Docker registry: " ++ render inner
  | .invalidRefWrap inner => "invalid OCI image reference: " ++ render inner
  | .manifestNetwork msg => "failed to fetch OCI manifest: " ++ msg
  | .imageNotFound ns repo tag status =>
      "OCI image '" ++ ns ++ "/" ++ repo ++ ":" ++ tag ++ "' not found (status: " ++
      toString status ++ ")"
  | .manifestBadStatus status =>
      "failed to fetch OCI manifest (status: " ++ toString status ++ ")"
  | .manifestParseFailed => "failed to parse OCI manifest: "
  | .specificNetwork msg => "failed to fetch specific manifest: " ++ msg
  | .specificBadStatus status =>
      "specific manifest not found (status: " ++ toString status ++ ")"
  | .specificParseFailed => "failed to parse specific manifest: "
  | .specificWrap inner => "failed to get specific manifest: " ++ render inner
  | .configDigestMissing ns repo tag =>
      "unable to determine image config digest for '" ++ ns ++ "/" ++ repo ++ ":" ++ tag ++ "'"
  | .configNetwork msg => "failed to fetch image config: " ++ msg
  | .configBadStatus status => "image config not found (status: " ++ toString status ++ ")"
  | .configParseFailed => "failed to parse image config: "
  | .configWrap inner => "failed to get image config: " ++ render inner
  | .missingLabel ns repo tag serverName =>
      "OCI image '" ++ ns ++ "/" ++ repo ++ ":" ++ tag ++
      "' is missing required annotation. Add this to your Dockerfile: LABEL io.modelcontextprotocol.server.name=\"" ++
      serverName ++ "\""
  | .ownershipMismatch expected actual =>
      "OCI image ownership validation failed. Expected annotation 'io.modelcontextprotocol.server.name' = '" ++
      expected ++ "', got '" ++ actual ++ "'"

/-! ### The operations of `oci.go`

`ValidateOCI` is a straight-line function in the source; here it is split
into named steps (resolution, parsing, authentication, the status
classification of the first manifest fetch, the manifest-list
indirection, the digest check, the label check), each a verbatim
translation of the corresponding block of the source. -/

/-- The defaulting of an empty `pkg.RegistryBaseURL` performed at the top
of `ValidateOCI`. -/
def defaultedBaseURL (u : String) : String :=
  if u = "" then RegistryURLDocker else u

/-- The `supportedRegistries` map literal of `ValidateOCI`; a Go map used
only for lookup, modelled as an association list. -/
def supportedRegistries : List (String × String) :=
  [ (RegistryURLDocker, dockerIoAPIBaseURL),
    (RegistryURLGHCR, "https://ghcr.io"),
    (RegistryURLGAR, "https://artifactregistry.googleapis.com"),
    (RegistryURLGCR, "https://gcr.io"),
    (RegistryURLECR, "https://public.ecr.aws"),
    (RegistryURLACR, "https://azurecr.io"),
    (RegistryURLQuay, "https://quay.io"),
    (RegistryURLGitLabCR, "https://registry.gitlab.com"),
    (RegistryURLDockerHub, dockerIoAPIBaseURL),
    (RegistryURLJFrogCR, "https://jfrog.io"),
    (RegistryURLHarborCR, "https://goharbor.io"),
    (RegistryURLAlibabaACR, "https://cr.console.aliyun.com"),
    (RegistryURLIBMCR, "https://icr.io"),
    (RegistryURLOracleCR, "https://container-registry.oracle.com"),
    (RegistryURLDigitalOceanCR, "https://registry.digitalocean.com") ]

/-- The `supportedRegistries` exact lookup and the ordered substring
fallbacks of `ValidateOCI` (regional GAR, regional GCR, regional ECR,
ACR instances, local test servers), in source order. -/
def resolveAPIBaseURL (baseURL : String) : Except OCIError String :=
  match supportedRegistries.lookup baseURL with
  | some api => .ok api
  | none =>
    if containsSubstr baseURL "-docker.pkg.dev" then .ok baseURL
    else if containsSubstr baseURL ".gcr.io" then .ok baseURL
    else if containsSubstr baseURL ".amazonaws.com" then .ok baseURL
    else if containsSubstr baseURL ".azurecr.io" then .ok baseURL
    else if hasPrefix baseURL "http://127.0.0.1:" || hasPrefix baseURL "http://localhost:" then
      .ok baseURL
    else .error (.unsupportedRegistry baseURL)

/-- Registry endpoint resolution as performed at the top of
`ValidateOCI`: default an empty base URL to the public Docker registry,
then look it up. -/
def resolveRegistry (registryBaseURL : String) : Except OCIError String :=
  resolveAPIBaseURL (defaultedBaseURL registryBaseURL)

/-- Function `parseImageReference`: split the identifier on `/`; two segments are
returned verbatim, one segment gets the `library` default namespace, any
other count is an invalid reference. -/
def parseImageReference (identifier : String) : Except OCIError (String × String) :=
  match goSplitSlash identifier with
  | [s0, s1] => .ok (s0, s1)
  | [s] => .ok ("library", s)
  | _ => .error (.invalidReference identifier)

/-- The Docker Hub token endpoint URL built by `getDockerIoAuthToken`. -/
def dockerAuthURL (ns repo : String) : String :=
  "https://auth.docker.io/token?service=registry.docker.io&scope=repository:" ++
  ns ++ "/" ++ repo ++ ":pull"

/-- The unauthenticated GET request of `getDockerIoAuthToken` (no headers
are set on it). -/
def authTokenRequest (ns repo : String) : Request :=
  { url := dockerAuthURL ns repo, authorization := none, accept := none, userAgent := none }

/-- Function `getDockerIoAuthToken`: fetch a pull-scoped token from the Docker Hub
auth endpoint; non-200 status, transport failure and undecodable body are
distinct errors. -/
def getDockerIoAuthToken (env : Env) (ns repo : String) :
    Except OCIError String × List Request :=
  match env (authTokenRequest ns repo) with
  | .error msg => (.error (.authRequestNetwork msg), [authTokenRequest ns repo])
  | .ok resp =>
    if resp.status ≠ 200 then (.error (.authBadStatus resp.status), [authTokenRequest ns repo])
    else
      match resp.body.asAuth with
      | none => (.error .authParseFailed, [authTokenRequest ns repo])
      | some a => (.ok a.token, [authTokenRequest ns repo])

/-- The authentication switch of `ValidateOCI` (and the `if` of
`getSpecificManifest`/`getImageConfig`): only the Docker Hub API origin
gets a bearer token; every other case of the source switch sets no
header, so they collapse to the `else` branch. -/
def authorizationFor (env : Env) (apiBaseURL ns repo : String) :
    Except OCIError (Option String) × List Request :=
  if apiBaseURL = dockerIoAPIBaseURL then
    match getDockerIoAuthToken env ns repo with
    | (.error e, tr) => (.error (.authFailed e), tr)
    | (.ok tok, tr) => (.ok (some ("Bearer " ++ tok)), tr)
  else (.ok none, [])

/-- The tag-addressed manifest request of `ValidateOCI`. -/
def manifestRequest (apiBaseURL ns repo tag : String) (authH : Option String) : Request :=
  { url := apiBaseURL ++ "/v2/" ++ ns ++ "/" ++ repo ++ "/manifests/" ++ tag,
    authorization := authH, accept := some manifestAcceptBoth,
    userAgent := some validatorUserAgent }

/-- The digest-addressed manifest request of `getSpecificManifest`. -/
def specificManifestRequest (apiBaseURL ns repo digest : String) (authH : Option String) : Request :=
  { url := apiBaseURL ++ "/v2/" ++ ns ++ "/" ++ repo ++ "/manifests/" ++ digest,
    authorization := authH, accept := some ociManifestAccept,
    userAgent := some validatorUserAgent }

/-- The config blob request of `getImageConfig`. -/
def configRequest (apiBaseURL ns repo digest : String) (authH : Option String) : Request :=
  { url := apiBaseURL ++ "/v2/" ++ ns ++ "/" ++ repo ++ "/blobs/" ++ digest,
    authorization := authH, accept := some dockerManifestAccept,
    userAgent := some validatorUserAgent }

/-- Function `getSpecificManifest`: authenticate if the origin is Docker Hub,
fetch the digest-addressed manifest, fail on any non-200 status, and
decode the body. -/
def getSpecificManifest (env : Env) (apiBaseURL ns repo digest : String) :
    Except OCIError OCIManifest × List Request :=
  match authorizationFor env apiBaseURL ns repo with
  | (.error e, tr) => (.error e, tr)
  | (.ok authH, tr) =>
    match env (specificManifestRequest apiBaseURL ns repo digest authH) with
    | .error msg =>
      (.error (.specificNetwork msg), tr ++ [specificManifestRequest apiBaseURL ns repo digest authH])
    | .ok resp =>
      if resp.status ≠ 200 then
        (.error (.specificBadStatus resp.status),
         tr ++ [specificManifestRequest apiBaseURL ns repo digest authH])
      else
        match resp.body.asManifest with
        | none =>
          (.error .specificParseFailed,
           tr ++ [specificManifestRequest apiBaseURL ns repo digest authH])
        | some m => (.ok m, tr ++ [specificManifestRequest apiBaseURL ns repo digest authH])

/-- Function `getImageConfig`: authenticate if the origin is Docker Hub, fetch the
config blob, fail on any non-200 status, and decode the body. -/
def getImageConfig (env : Env) (apiBaseURL ns repo configDigest : String) :
    Except OCIError OCIImageConfig × List Request :=
  match authorizationFor env apiBaseURL ns repo with
  | (.error e, tr) => (.error e, tr)
  | (.ok authH, tr) =>
    match env (configRequest apiBaseURL ns repo configDigest authH) with
    | .error msg =>
      (.error (.configNetwork msg), tr ++ [configRequest apiBaseURL ns repo configDigest authH])
    | .ok resp =>
      if resp.status ≠ 200 then
        (.error (.configBadStatus resp.status),
         tr ++ [configRequest apiBaseURL ns repo configDigest authH])
      else
        match resp.body.asImageConfig with
        | none =>
          (.error .configParseFailed,
           tr ++ [configRequest apiBaseURL ns repo configDigest authH])
        | some c => (.ok c, tr ++ [configRequest apiBaseURL ns repo configDigest authH])

/-- The final label check of `ValidateOCI` (its last three blocks): look
up the required label, fail with the remediation message when absent,
fail with the mismatch message when not byte-for-byte equal, succeed
otherwise. -/
def checkOwnershipLabel (labels : List (String × String)) (serverName ns repo tag : String) :
    Except OCIError Unit :=
  match labels.lookup serverNameLabelKey with
  | none => .error (.missingLabel ns repo tag serverName)
  | some mcpName =>
    if mcpName ≠ serverName then .error (.ownershipMismatch serverName mcpName)
    else .ok ()

/-- The tail of `ValidateOCI` once a config digest has been computed: the
empty-digest check, the config blob fetch (wrapped error), and the label
check. -/
def withConfigDigest (env : Env) (apiBaseURL ns repo tag serverName configDigest : String) :
    Except OCIError Unit × List Request :=
  if configDigest = "" then (.error (.configDigestMissing ns repo tag), [])
  else
    match getImageConfig env apiBaseURL ns repo configDigest with
    | (.error e, tr) => (.error (.configWrap e), tr)
    | (.ok config, tr) => (checkOwnershipLabel config.labels serverName ns repo tag, tr)

/-- The manifest-list indirection of `ValidateOCI`: a non-empty
`manifests` list triggers one `getSpecificManifest` call for the first
entry's digest (wrapped error) whose config digest is then used;
otherwise the top-level manifest's own config digest is used. -/
def handleManifest (env : Env) (apiBaseURL ns repo tag serverName : String)
    (manifest : OCIManifest) : Except OCIError Unit × List Request :=
  match manifest.manifests with
  | entry :: _ =>
    match getSpecificManifest env apiBaseURL ns repo entry.digest with
    | (.error e, tr) => (.error (.specificWrap e), tr)
    | (.ok sm, tr) =>
      ((withConfigDigest env apiBaseURL ns repo tag serverName sm.config.digest).1,
       tr ++ (withConfigDigest env apiBaseURL ns repo tag serverName sm.config.digest).2)
  | [] => withConfigDigest env apiBaseURL ns repo tag serverName manifest.config.digest

/-- The status classification of the first manifest fetch in
`ValidateOCI`, checked in source order: 404/401, then 429 (success,
validation skipped), then any other non-200, then decode. -/
def handleManifestResponse (env : Env) (apiBaseURL ns repo tag serverName : String)
    (resp : Response) : Except OCIError Unit × List Request :=
  if resp.status = 404 ∨ resp.status = 401 then
    (.error (.imageNotFound ns repo tag resp.status), [])
  else if resp.status = 429 then
    (.ok (), [])
  else if resp.status ≠ 200 then
    (.error (.manifestBadStatus resp.status), [])
  else
    match resp.body.asManifest with
    | none => (.error .manifestParseFailed, [])
    | some manifest => handleManifest env apiBaseURL ns repo tag serverName manifest

/-- Function `ValidateOCI`, the entry point: default the base URL, resolve the
registry, parse the image reference, authenticate, fetch the
tag-addressed manifest, and classify the response. -/
def ValidateOCI (env : Env) (pkg : Package) (serverName : String) :
    Except OCIError Unit × List Request :=
  match resolveRegistry pkg.registryBaseURL with
  | .error e => (.error e, [])
  | .ok apiBaseURL =>
    match parseImageReference pkg.identifier with
    | .error e => (.error (.invalidRefWrap e), [])
    | .ok (ns, repo) =>
      match authorizationFor env apiBaseURL ns repo with
      | (.error e, tr) => (.error e, tr)
      | (.ok authH, tr0) =>
        match env (manifestRequest apiBaseURL ns repo pkg.version authH) with
        | .error msg =>
          (.error (.manifestNetwork msg),
           tr0 ++ [manifestRequest apiBaseURL ns repo pkg.version authH])
        | .ok resp =>
          ((handleManifestResponse env apiBaseURL ns repo pkg.version serverName resp).1,
           tr0 ++ manifestRequest apiBaseURL ns repo pkg.version authH ::
             (handleManifestResponse env apiBaseURL ns repo pkg.version serverName resp).2)

/-! ### Mock environments and packages used by the witnesses -/

/-- A mock registry answering HTTP 429 to every request. -/
def rateLimitEnv : Env := fun _ => .ok ⟨429, ⟨none, none, none⟩⟩

/-- A package hosted on GHCR, used by the witnesses. -/
def ghcrPkg : Package := ⟨"https://ghcr.io", "foo/bar", "1.0"⟩

/-- A mock registry serving a manifest list whose first entry leads to a
concrete manifest and a labelled config blob. -/
def multiArchEnv : Env := fun r =>
  if r.url = "https://ghcr.io/v2/foo/bar/manifests/1.0" then
    .ok ⟨200, ⟨some ⟨[⟨"sha256:d1"⟩], ⟨""⟩⟩, none, none⟩⟩
  else if r.url = "https://ghcr.io/v2/foo/bar/manifests/sha256:d1" then
    .ok ⟨200, ⟨some ⟨[], ⟨"sha256:c1"⟩⟩, none, none⟩⟩
  else if r.url = "https://ghcr.io/v2/foo/bar/blobs/sha256:c1" then
    .ok ⟨200, ⟨none, some ⟨[(serverNameLabelKey, "com.example/x")]⟩, none⟩⟩
  else .error "unexpected"

/-- Every request a run may issue is either the anonymous token request
or carries exactly the header computed by the authentication step. -/
def requestOk (env : Env) (api ns repo : String) (r : Request) : Prop :=
  r = authTokenRequest ns repo ∨
  ∃ authH tr, authorizationFor env api ns repo = (.ok authH, tr) ∧
    r.authorization = authH

/-! ### Helper lemmas about the string model -/

theorem data_append (a b : String) : (a ++ b).data = a.data ++ b.data := rfl

theorem str_append_assoc (a b c : String) : a ++ b ++ c = a ++ (b ++ c) := by
  apply String.ext
  simp [data_append]

theorem listPrefixOf_append (p t : List Char) : listPrefixOf p (p ++ t) = true := by
  induction p with
  | nil => rfl
  | cons c cs ih => simp [listPrefixOf, ih]

theorem listInfixOf_of_listPrefixOf (p l : List Char)
    (h : listPrefixOf p l = true) : listInfixOf p l = true := by
  cases l with
  | nil =>
    cases p with
    | nil => rfl
    | cons c cs => simp [listPrefixOf] at h
  | cons b rest => simp [listInfixOf, h]

theorem listInfixOf_append (s p t : List Char) : listInfixOf p (s ++ p ++ t) = true := by
  induction s with
  | nil => exact listInfixOf_of_listPrefixOf _ _ (by simpa using listPrefixOf_append p t)
  | cons c cs ih =>
    simp only [List.cons_append, listInfixOf, Bool.or_eq_true]
    right
    exact ih

theorem containsSubstr_parts (a pat b : String) :
    containsSubstr (a ++ pat ++ b) pat = true := by
  have := listInfixOf_append a.data pat.data b.data
  simpa [containsSubstr, data_append] using this

theorem containsSubstr_of_parts (s a pat b : String) (h : s = a ++ pat ++ b) :
    containsSubstr s pat = true := h ▸ containsSubstr_parts a pat b

theorem containsSubstr_parts2 (a pat : String) : containsSubstr (a ++ pat) pat = true := by
  have := listInfixOf_append a.data pat.data []
  simpa [containsSubstr, data_append] using this

theorem containsSubstr_of_parts2 (s a pat : String) (h : s = a ++ pat) :
    containsSubstr s pat = true := h ▸ containsSubstr_parts2 a pat

/-! ### Claim theorems -/

/-- Claim C4: `parseImageReference` splits its identifier on `/`; exactly
two segments are returned verbatim, exactly one segment yields the pair
`("library", segment)` (so `parse "nginx" = ("library", "nginx")`), and
any other segment count (three or more) fails with an invalid image
reference error naming the offending identifier (so
`parse "too/many/slashes/here"` fails). -/
theorem C4_parseImageReference_cases (identifier : String) :
    (∀ s0 s1, goSplitSlash identifier = [s0, s1] →
        parseImageReference identifier = .ok (s0, s1)) ∧
    (∀ s, goSplitSlash identifier = [s] →
        parseImageReference identifier = .ok ("library", s)) ∧
    (3 ≤ (goSplitSlash identifier).length →
        parseImageReference identifier = .error (.invalidReference identifier)) ∧
    parseImageReference "nginx" = .ok ("library", "nginx") ∧
    parseImageReference "too/many/slashes/here" =
      .error (.invalidReference "too/many/slashes/here") := by
  refine ⟨?_, ?_, ?_, by decide, by decide⟩
  · intro s0 s1 h
    simp [parseImageReference, h]
  · intro s h
    simp [parseImageReference, h]
  · intro h
    unfold parseImageReference
    cases hs : goSplitSlash identifier with
    | nil => simp
    | cons a t =>
      cases t with
      | nil => rw [hs] at h; simp at h
      | cons b t2 =>
        cases t2 with
        | nil => rw [hs] at h; simp at h
        | cons c t3 => simp

/-- Witness for C4 at the identifier `a/b`. -/
theorem C4_witness : parseImageReference "a/b" = .ok ("a", "b") :=
  (C4_parseImageReference_cases "a/b").1 "a" "b" (by decide)

/-- Claim C1: the ownership check of `ValidateOCI`: a labels map without
the key `io.modelcontextprotocol.server.name` fails with the
missing-required-annotation error whose message contains the
ready-to-paste snippet built from the claimed owner; a value not
byte-for-byte equal to the claimed owner fails with the
ownership-validation-failed error naming both values; an equal value
succeeds. -/
theorem C1_ownership_verification (labels : List (String × String))
    (serverName ns repo tag : String) :
    (labels.lookup serverNameLabelKey = none →
      checkOwnershipLabel labels serverName ns repo tag =
        .error (.missingLabel ns repo tag serverName) ∧
      containsSubstr (render (.missingLabel ns repo tag serverName))
        ("LABEL io.modelcontextprotocol.server.name=\"" ++ serverName ++ "\"") = true) ∧
    (∀ actual, labels.lookup serverNameLabelKey = some actual → actual ≠ serverName →
      checkOwnershipLabel labels serverName ns repo tag =
        .error (.ownershipMismatch serverName actual) ∧
      containsSubstr (render (.ownershipMismatch serverName actual)) serverName = true ∧
      containsSubstr (render (.ownershipMismatch serverName actual)) actual = true) ∧
    (labels.lookup serverNameLabelKey = some serverName →
      checkOwnershipLabel labels serverName ns repo tag = .ok ()) := by
  refine ⟨?_, ?_, ?_⟩
  · intro h
    refine ⟨by simp [checkOwnershipLabel, h], ?_⟩
    apply containsSubstr_of_parts2 _
      ("OCI image '" ++ ns ++ "/" ++ repo ++ ":" ++ tag ++
       "' is missing required annotation. Add this to your Dockerfile: ")
    apply String.ext
    have hLd : ("' is missing required annotation. Add this to your Dockerfile: LABEL io.modelcontextprotocol.server.name=\"" : String).data =
        ("' is missing required annotation. Add this to your Dockerfile: " : String).data ++
        ("LABEL io.modelcontextprotocol.server.name=\"" : String).data := by decide
    simp [render, data_append, hLd]
  · intro actual h hne
    refine ⟨by simp [checkOwnershipLabel, h, hne], ?_, ?_⟩
    · apply containsSubstr_of_parts _
        ("OCI image ownership validation failed. Expected annotation 'io.modelcontextprotocol.server.name' = '")
        serverName ("', got '" ++ actual ++ "'")
      simp [render, str_append_assoc]
    · apply containsSubstr_of_parts _
        ("OCI image ownership validation failed. Expected annotation 'io.modelcontextprotocol.server.name' = '" ++
         serverName ++ "', got '")
        actual "'"
      simp [render, str_append_assoc]
  · intro h
    simp [checkOwnershipLabel, h]

/-- Witness for C1 at an empty labels map. -/
theorem C1_witness :
    checkOwnershipLabel [] "com.example/x" "foo" "bar" "1.0" =
      .error (.missingLabel "foo" "bar" "1.0" "com.example/x") ∧
    containsSubstr (render (.missingLabel "foo" "bar" "1.0" "com.example/x"))
      ("LABEL io.modelcontextprotocol.server.name=\"" ++ "com.example/x" ++ "\"") = true :=
  (C1_ownership_verification [] "com.example/x" "foo" "bar" "1.0").1 rfl

/-- Claim C9 as stated is false: the empty identifier is accepted by
`parseImageReference` and yields an empty repository, so not every
accepted identifier has non-empty namespace and repository. -/
theorem C9_counterexample :
    ¬ (∀ identifier ns repo, parseImageReference identifier = .ok (ns, repo) →
        ns ≠ "" ∧ repo ≠ "") := by
  intro h
  exact (h "" "library" "" (by decide)).2 rfl

/-- Claim C9 amended: for every identifier all of whose `/`-separated
segments are non-empty, an accepted parse yields a non-empty namespace
and repository, and the namespace is the literal `library` when the
identifier carries no explicit namespace segment. -/
theorem C9_amended_invariant (identifier ns repo : String)
    (hseg : ∀ s ∈ goSplitSlash identifier, s ≠ "")
    (hok : parseImageReference identifier = .ok (ns, repo)) :
    ns ≠ "" ∧ repo ≠ "" ∧ ((goSplitSlash identifier).length = 1 → ns = "library") := by
  unfold parseImageReference at hok
  cases hs : goSplitSlash identifier with
  | nil =>
    try rw [hs] at hok
    exact Except.noConfusion hok
  | cons a t =>
    cases t with
    | nil =>
      try rw [hs] at hok
      have hok' : (Except.ok ("library", a) : Except OCIError (String × String)) =
          .ok (ns, repo) := hok
      simp at hok'
      obtain ⟨rfl, rfl⟩ := hok'
      exact ⟨by decide, hseg _ (by simp [hs]), fun _ => rfl⟩
    | cons b t2 =>
      cases t2 with
      | nil =>
        try rw [hs] at hok
        have hok' : (Except.ok (a, b) : Except OCIError (String × String)) =
            .ok (ns, repo) := hok
        simp at hok'
        obtain ⟨rfl, rfl⟩ := hok'
        exact ⟨hseg _ (by simp [hs]), hseg _ (by simp [hs]), by intro h; simp [hs] at h⟩
      | cons c t3 =>
        try rw [hs] at hok
        exact Except.noConfusion hok

/-- Witness for the amended C9 at the identifier `a/b`. -/
theorem C9_amended_witness :
    ("a" : String) ≠ "" ∧ ("b" : String) ≠ "" ∧
      ((goSplitSlash "a/b").length = 1 → ("a" : String) = "library") :=
  C9_amended_invariant "a/b" "a" "b" (by decide) (by decide)

/-- Claim C6: a base URL absent from the static provider table that
matches one of the ordered substring fallbacks resolves to the input
base URL itself, and in particular
`resolve "https://us-central1-docker.pkg.dev"` succeeds to that same
URL. -/
theorem C6_fallback_resolution (baseURL : String)
    (hnotab : supportedRegistries.lookup (defaultedBaseURL baseURL) = none)
    (hfb : containsSubstr baseURL "-docker.pkg.dev" = true ∨
           containsSubstr baseURL ".gcr.io" = true ∨
           containsSubstr baseURL ".amazonaws.com" = true ∨
           containsSubstr baseURL ".azurecr.io" = true ∨
           hasPrefix baseURL "http://127.0.0.1:" = true ∨
           hasPrefix baseURL "http://localhost:" = true) :
    resolveRegistry baseURL = .ok baseURL ∧
    resolveRegistry "https://us-central1-docker.pkg.dev" =
      .ok "https://us-central1-docker.pkg.dev" := by
  have hne : baseURL ≠ "" := by
    intro h
    rw [h] at hnotab
    exact absurd hnotab (by decide)
  have hd : defaultedBaseURL baseURL = baseURL := if_neg hne
  rw [hd] at hnotab
  refine ⟨?_, by decide⟩
  unfold resolveRegistry
  rw [hd]
  simp only [resolveAPIBaseURL, hnotab]
  split
  · rfl
  · split
    · rfl
    · split
      · rfl
      · split
        · rfl
        · split
          · rfl
          · simp_all

/-- Witness for C6 at the regional Artifact Registry host. -/
theorem C6_witness :
    resolveRegistry "https://us-central1-docker.pkg.dev" =
      .ok "https://us-central1-docker.pkg.dev" :=
  (C6_fallback_resolution "https://us-central1-docker.pkg.dev" (by decide)
    (Or.inl (by decide))).1

/-- Claim C7: a base URL matching neither the table nor any fallback
makes resolution (and `ValidateOCI`) fail with the unsupported-registry
error, whose message contains the rejected URL and exactly the five
example providers; no network request is issued (empty trace). -/
theorem C7_unsupported_registry (env : Env) (pkg : Package) (serverName : String)
    (hnotab : supportedRegistries.lookup (defaultedBaseURL pkg.registryBaseURL) = none)
    (hfb1 : containsSubstr (defaultedBaseURL pkg.registryBaseURL) "-docker.pkg.dev" = false)
    (hfb2 : containsSubstr (defaultedBaseURL pkg.registryBaseURL) ".gcr.io" = false)
    (hfb3 : containsSubstr (defaultedBaseURL pkg.registryBaseURL) ".amazonaws.com" = false)
    (hfb4 : containsSubstr (defaultedBaseURL pkg.registryBaseURL) ".azurecr.io" = false)
    (hfb5 : hasPrefix (defaultedBaseURL pkg.registryBaseURL) "http://127.0.0.1:" = false)
    (hfb6 : hasPrefix (defaultedBaseURL pkg.registryBaseURL) "http://localhost:" = false) :
    resolveRegistry pkg.registryBaseURL =
      .error (.unsupportedRegistry (defaultedBaseURL pkg.registryBaseURL)) ∧
    ValidateOCI env pkg serverName =
      (.error (.unsupportedRegistry (defaultedBaseURL pkg.registryBaseURL)), []) ∧
    containsSubstr (render (.unsupportedRegistry (defaultedBaseURL pkg.registryBaseURL)))
      (defaultedBaseURL pkg.registryBaseURL) = true ∧
    render (.unsupportedRegistry (defaultedBaseURL pkg.registryBaseURL)) =
      "unsupported OCI registry: '" ++ defaultedBaseURL pkg.registryBaseURL ++
      "'. Supported registries: docker.io, ghcr.io, gcr.io, quay.io, artifactregistry.googleapis.com" := by
  have hres : resolveRegistry pkg.registryBaseURL =
      .error (.unsupportedRegistry (defaultedBaseURL pkg.registryBaseURL)) := by
    unfold resolveRegistry
    simp [resolveAPIBaseURL, hnotab, hfb1, hfb2, hfb3, hfb4, hfb5, hfb6]
  refine ⟨hres, ?_, ?_, by simp [render]⟩
  · simp [ValidateOCI, hres]
  · exact containsSubstr_of_parts _ "unsupported OCI registry: '" _
      "'. Supported registries: docker.io, ghcr.io, gcr.io, quay.io, artifactregistry.googleapis.com"
      (by simp [render])

/-- Witness for C7 at an unknown registry host. -/
theorem C7_witness :
    resolveRegistry "https://not-a-real-registry.example" =
      .error (.unsupportedRegistry "https://not-a-real-registry.example") :=
  (C7_unsupported_registry (fun _ => .error "unreachable")
    ⟨"https://not-a-real-registry.example", "x", "1"⟩ "x"
    (by decide) (by decide) (by decide) (by decide) (by decide) (by decide) (by decide)).1

/-- Reduction of `ValidateOCI` once resolution, parsing, authentication
and the first manifest fetch are fixed: the outcome is the status
classification of the response, and the trace is the authentication
trace, the manifest request, and whatever the classification issues. -/
theorem ValidateOCI_reduction (env : Env) (pkg : Package)
    (serverName ns repo apiBaseURL : String) (authH : Option String)
    (tr0 : List Request) (resp : Response)
    (hres : resolveRegistry pkg.registryBaseURL = .ok apiBaseURL)
    (hparse : parseImageReference pkg.identifier = .ok (ns, repo))
    (hauth : authorizationFor env apiBaseURL ns repo = (.ok authH, tr0))
    (hresp : env (manifestRequest apiBaseURL ns repo pkg.version authH) = .ok resp) :
    ValidateOCI env pkg serverName =
      ((handleManifestResponse env apiBaseURL ns repo pkg.version serverName resp).1,
       tr0 ++ manifestRequest apiBaseURL ns repo pkg.version authH ::
         (handleManifestResponse env apiBaseURL ns repo pkg.version serverName resp).2) := by
  simp only [ValidateOCI, hres, hparse, hauth, hresp]

/-- Claim C2: classification of the status of the first (tag-addressed)
manifest fetch: 404/401 give the image-not-found error naming the
fully-qualified reference and the status; 429 gives success immediately
with no further request; any other non-200 gives the generic
failed-to-fetch error carrying the status; 200 with an undecodable body
gives the distinct failed-to-parse error. -/
theorem C2_status_classification (env : Env) (pkg : Package)
    (serverName ns repo apiBaseURL : String) (authH : Option String)
    (tr0 : List Request) (resp : Response)
    (hres : resolveRegistry pkg.registryBaseURL = .ok apiBaseURL)
    (hparse : parseImageReference pkg.identifier = .ok (ns, repo))
    (hauth : authorizationFor env apiBaseURL ns repo = (.ok authH, tr0))
    (hresp : env (manifestRequest apiBaseURL ns repo pkg.version authH) = .ok resp) :
    (resp.status = 404 ∨ resp.status = 401 →
      ValidateOCI env pkg serverName =
        (.error (.imageNotFound ns repo pkg.version resp.status),
         tr0 ++ [manifestRequest apiBaseURL ns repo pkg.version authH]) ∧
      containsSubstr (render (.imageNotFound ns repo pkg.version resp.status))
        (ns ++ "/" ++ repo ++ ":" ++ pkg.version) = true ∧
      containsSubstr (render (.imageNotFound ns repo pkg.version resp.status))
        (toString resp.status) = true) ∧
    (resp.status = 429 →
      ValidateOCI env pkg serverName =
        (.ok (), tr0 ++ [manifestRequest apiBaseURL ns repo pkg.version authH])) ∧
    (resp.status ≠ 404 → resp.status ≠ 401 → resp.status ≠ 429 → resp.status ≠ 200 →
      ValidateOCI env pkg serverName =
        (.error (.manifestBadStatus resp.status),
         tr0 ++ [manifestRequest apiBaseURL ns repo pkg.version authH]) ∧
      containsSubstr (render (.manifestBadStatus resp.status)) (toString resp.status) = true) ∧
    (resp.status = 200 → resp.body.asManifest = none →
      ValidateOCI env pkg serverName =
        (.error .manifestParseFailed,
         tr0 ++ [manifestRequest apiBaseURL ns repo pkg.version authH])) := by
  have key := ValidateOCI_reduction env pkg serverName ns repo apiBaseURL authH tr0 resp
    hres hparse hauth hresp
  refine ⟨?_, ?_, ?_, ?_⟩
  · intro h
    have hh : handleManifestResponse env apiBaseURL ns repo pkg.version serverName resp =
        (.error (.imageNotFound ns repo pkg.version resp.status), []) := by
      unfold handleManifestResponse
      rw [if_pos h]
    refine ⟨?_, ?_, ?_⟩
    · rw [key, hh]
    · exact containsSubstr_of_parts _ "OCI image '" _
        ("' not found (status: " ++ toString resp.status ++ ")")
        (by apply String.ext; simp [render, data_append])
    · exact containsSubstr_of_parts _
        ("OCI image '" ++ ns ++ "/" ++ repo ++ ":" ++ pkg.version ++ "' not found (status: ")
        (toString resp.status) ")"
        (by apply String.ext; simp [render, data_append])
  · intro h
    have hh : handleManifestResponse env apiBaseURL ns repo pkg.version serverName resp =
        (.ok (), []) := by
      unfold handleManifestResponse
      rw [if_neg (by simp [h]), if_pos h]
    rw [key, hh]
  · intro h404 h401 h429 h200
    have hh : handleManifestResponse env apiBaseURL ns repo pkg.version serverName resp =
        (.error (.manifestBadStatus resp.status), []) := by
      unfold handleManifestResponse
      rw [if_neg (by simp [h404, h401]), if_neg h429, if_pos h200]
    refine ⟨by rw [key, hh], ?_⟩
    exact containsSubstr_of_parts _ "failed to fetch OCI manifest (status: "
      (toString resp.status) ")"
      (by apply String.ext; simp [render, data_append])
  · intro h200 hdec
    have hh : handleManifestResponse env apiBaseURL ns repo pkg.version serverName resp =
        (.error .manifestParseFailed, []) := by
      unfold handleManifestResponse
      rw [if_neg (by simp [h200]), if_neg (by simp [h200]), if_neg (by simp [h200]), hdec]
    rw [key, hh]

/-- Witness for C2: the 429 branch at a GHCR package (success, no
further request). -/
theorem C2_witness :
    ValidateOCI rateLimitEnv ghcrPkg "x" =
      (.ok (), [] ++ [manifestRequest "https://ghcr.io" "foo" "bar" "1.0" none]) :=
  (C2_status_classification rateLimitEnv ghcrPkg "x" "foo" "bar" "https://ghcr.io" none []
    ⟨429, ⟨none, none, none⟩⟩ (by decide) (by decide) (by decide) rfl).2.1 rfl

/-- Claim C10: unlike the first manifest fetch, the platform-specific
manifest fetch and the config blob fetch treat every non-200 status —
including 429, 404 and 401 — as an error carrying the status code. -/
theorem C10_no_skip_on_later_fetches (env : Env)
    (apiBaseURL ns repo digest : String) (authH : Option String)
    (tr0 : List Request) (resp resp2 : Response)
    (hauth : authorizationFor env apiBaseURL ns repo = (.ok authH, tr0)) :
    (env (specificManifestRequest apiBaseURL ns repo digest authH) = .ok resp →
      resp.status ≠ 200 →
      getSpecificManifest env apiBaseURL ns repo digest =
        (.error (.specificBadStatus resp.status),
         tr0 ++ [specificManifestRequest apiBaseURL ns repo digest authH]) ∧
      containsSubstr (render (.specificBadStatus resp.status)) (toString resp.status) = true) ∧
    (env (configRequest apiBaseURL ns repo digest authH) = .ok resp2 →
      resp2.status ≠ 200 →
      getImageConfig env apiBaseURL ns repo digest =
        (.error (.configBadStatus resp2.status),
         tr0 ++ [configRequest apiBaseURL ns repo digest authH]) ∧
      containsSubstr (render (.configBadStatus resp2.status)) (toString resp2.status) = true) := by
  constructor
  · intro hresp hs
    constructor
    · simp only [getSpecificManifest, hauth, hresp]
      rw [if_pos hs]
    · exact containsSubstr_of_parts _ "specific manifest not found (status: "
        (toString resp.status) ")"
        (by apply String.ext; simp [render, data_append])
  · intro hresp hs
    constructor
    · simp only [getImageConfig, hauth, hresp]
      rw [if_pos hs]
    · exact containsSubstr_of_parts _ "image config not found (status: "
        (toString resp2.status) ")"
        (by apply String.ext; simp [render, data_append])

/-- Witness for C10: a 429 during the platform-specific manifest fetch
is an error, not a skip. -/
theorem C10_witness :
    getSpecificManifest rateLimitEnv "https://ghcr.io" "foo" "bar" "sha256:d1" =
      (.error (.specificBadStatus 429),
       [] ++ [specificManifestRequest "https://ghcr.io" "foo" "bar" "sha256:d1" none]) ∧
    containsSubstr (render (.specificBadStatus 429)) (toString 429) = true :=
  (C10_no_skip_on_later_fetches rateLimitEnv "https://ghcr.io" "foo" "bar" "sha256:d1" none []
    ⟨429, ⟨none, none, none⟩⟩ ⟨429, ⟨none, none, none⟩⟩ (by decide)).1 rfl (by decide)

/-! ### Trace lemmas used by C3 and C5 -/

/-- Function `getDockerIoAuthToken` always issues exactly the one token request. -/
theorem getDockerIoAuthToken_trace (env : Env) (ns repo : String) :
    (getDockerIoAuthToken env ns repo).2 = [authTokenRequest ns repo] := by
  unfold getDockerIoAuthToken
  split
  · rfl
  · split
    · rfl
    · split <;> rfl

/-- Every request issued by the authentication step is the token
request. -/
theorem authorizationFor_trace (env : Env) (api ns repo : String) :
    ∀ r ∈ (authorizationFor env api ns repo).2, r = authTokenRequest ns repo := by
  unfold authorizationFor
  split
  · cases hg : getDockerIoAuthToken env ns repo with
    | mk res tr =>
      have htr : tr = [authTokenRequest ns repo] := by
        have h2 := getDockerIoAuthToken_trace env ns repo
        rw [hg] at h2
        exact h2
      cases res <;> simp [htr]
  · simp

/-- The authentication step against the Docker Hub API origin issues
exactly the one token request. -/
theorem authorizationFor_docker_trace (env : Env) (ns repo : String) :
    (authorizationFor env dockerIoAPIBaseURL ns repo).2 = [authTokenRequest ns repo] := by
  unfold authorizationFor
  rw [if_pos rfl]
  cases hg : getDockerIoAuthToken env ns repo with
  | mk res tr =>
    have htr : tr = [authTokenRequest ns repo] := by
      have h2 := getDockerIoAuthToken_trace env ns repo
      rw [hg] at h2
      exact h2
    cases res <;> simp [htr]

/-- A successful authentication step against the Docker Hub API origin
yields a bearer header. -/
theorem authorizationFor_docker_ok (env : Env) (ns repo : String)
    (authH : Option String) (tr : List Request)
    (h : authorizationFor env dockerIoAPIBaseURL ns repo = (.ok authH, tr)) :
    ∃ t, authH = some ("Bearer " ++ t) := by
  unfold authorizationFor at h
  rw [if_pos rfl] at h
  split at h
  · simp at h
  · rename_i tok tr2 heq
    simp at h
    exact ⟨tok, h.1.symm⟩

/-- The authentication step at a non-Docker-Hub origin yields no header
and no request. -/
theorem authorizationFor_anon (env : Env) (api ns repo : String)
    (hne : api ≠ dockerIoAPIBaseURL) :
    authorizationFor env api ns repo = (.ok none, []) := by
  unfold authorizationFor
  rw [if_neg hne]

theorem authorizationFor_requests (env : Env) (api ns repo : String) :
    ∀ r ∈ (authorizationFor env api ns repo).2, requestOk env api ns repo r :=
  fun r hr => Or.inl (authorizationFor_trace env api ns repo r hr)

theorem getSpecificManifest_requests (env : Env) (api ns repo digest : String) :
    ∀ r ∈ (getSpecificManifest env api ns repo digest).2, requestOk env api ns repo r := by
  unfold getSpecificManifest
  split
  · rename_i e tr heq
    intro r hr
    exact Or.inl (authorizationFor_trace env api ns repo r (by rw [heq]; exact hr))
  · rename_i authH tr heq
    have hok : ∀ r ∈ tr ++ [specificManifestRequest api ns repo digest authH],
        requestOk env api ns repo r := by
      intro r hr
      rcases List.mem_append.mp hr with h | h
      · exact Or.inl (authorizationFor_trace env api ns repo r (by rw [heq]; exact h))
      · simp at h
        subst h
        exact Or.inr ⟨authH, tr, heq, rfl⟩
    split
    · exact hok
    · split
      · exact hok
      · split <;> exact hok

theorem getImageConfig_requests (env : Env) (api ns repo digest : String) :
    ∀ r ∈ (getImageConfig env api ns repo digest).2, requestOk env api ns repo r := by
  unfold getImageConfig
  split
  · rename_i e tr heq
    intro r hr
    exact Or.inl (authorizationFor_trace env api ns repo r (by rw [heq]; exact hr))
  · rename_i authH tr heq
    have hok : ∀ r ∈ tr ++ [configRequest api ns repo digest authH],
        requestOk env api ns repo r := by
      intro r hr
      rcases List.mem_append.mp hr with h | h
      · exact Or.inl (authorizationFor_trace env api ns repo r (by rw [heq]; exact h))
      · simp at h
        subst h
        exact Or.inr ⟨authH, tr, heq, rfl⟩
    split
    · exact hok
    · split
      · exact hok
      · split <;> exact hok

theorem withConfigDigest_requests (env : Env) (api ns repo tag serverName d : String) :
    ∀ r ∈ (withConfigDigest env api ns repo tag serverName d).2,
      requestOk env api ns repo r := by
  unfold withConfigDigest
  split
  · simp
  · split
    · rename_i e tr heq
      intro r hr
      exact getImageConfig_requests env api ns repo d r (by rw [heq]; exact hr)
    · rename_i cfg tr heq
      intro r hr
      exact getImageConfig_requests env api ns repo d r (by rw [heq]; exact hr)

/-- Reduction of `handleManifest` for a manifest list (non-empty
`manifests`). -/
theorem handleManifest_cons_eq (env : Env) (api ns repo tag serverName : String)
    (manifest : OCIManifest) (entry : ManifestEntry) (rest : List ManifestEntry)
    (hm : manifest.manifests = entry :: rest) :
    handleManifest env api ns repo tag serverName manifest =
      (match getSpecificManifest env api ns repo entry.digest with
       | (.error e, tr) => (.error (.specificWrap e), tr)
       | (.ok sm, tr) =>
         ((withConfigDigest env api ns repo tag serverName sm.config.digest).1,
          tr ++ (withConfigDigest env api ns repo tag serverName sm.config.digest).2)) := by
  unfold handleManifest
  rw [hm]

/-- Reduction of `handleManifest` for a concrete manifest (empty
`manifests`). -/
theorem handleManifest_nil_eq (env : Env) (api ns repo tag serverName : String)
    (manifest : OCIManifest) (hm : manifest.manifests = []) :
    handleManifest env api ns repo tag serverName manifest =
      withConfigDigest env api ns repo tag serverName manifest.config.digest := by
  unfold handleManifest
  rw [hm]

theorem handleManifest_requests (env : Env) (api ns repo tag serverName : String)
    (manifest : OCIManifest) :
    ∀ r ∈ (handleManifest env api ns repo tag serverName manifest).2,
      requestOk env api ns repo r := by
  intro r hr
  cases hm : manifest.manifests with
  | nil =>
    rw [handleManifest_nil_eq env api ns repo tag serverName manifest hm] at hr
    exact withConfigDigest_requests env api ns repo tag serverName manifest.config.digest r hr
  | cons entry rest =>
    rw [handleManifest_cons_eq env api ns repo tag serverName manifest entry rest hm] at hr
    split at hr
    · rename_i e tr heq
      exact getSpecificManifest_requests env api ns repo entry.digest r (by rw [heq]; exact hr)
    · rename_i sm tr heq
      rcases List.mem_append.mp hr with h | h
      · exact getSpecificManifest_requests env api ns repo entry.digest r (by rw [heq]; exact h)
      · exact withConfigDigest_requests env api ns repo tag serverName sm.config.digest r h

theorem handleManifestResponse_requests (env : Env)
    (api ns repo tag serverName : String) (resp : Response) :
    ∀ r ∈ (handleManifestResponse env api ns repo tag serverName resp).2,
      requestOk env api ns repo r := by
  unfold handleManifestResponse
  split
  · simp
  · split
    · simp
    · split
      · simp
      · split
        · simp
        · exact handleManifest_requests env api ns repo tag serverName _

/-- Every request `ValidateOCI` issues is either the anonymous token
request or carries the header computed by the authentication step. -/
theorem ValidateOCI_requests (env : Env) (pkg : Package)
    (serverName ns repo apiBaseURL : String)
    (hres : resolveRegistry pkg.registryBaseURL = .ok apiBaseURL)
    (hparse : parseImageReference pkg.identifier = .ok (ns, repo)) :
    ∀ r ∈ (ValidateOCI env pkg serverName).2, requestOk env apiBaseURL ns repo r := by
  intro r hr
  simp only [ValidateOCI, hres, hparse] at hr
  split at hr
  · rename_i e tr heq
    exact authorizationFor_requests env apiBaseURL ns repo r (by rw [heq]; exact hr)
  · rename_i authH tr0 heq
    have hmem : ∀ x ∈ tr0, requestOk env apiBaseURL ns repo x := by
      intro x hx
      exact authorizationFor_requests env apiBaseURL ns repo x (by rw [heq]; exact hx)
    have hreq : requestOk env apiBaseURL ns repo
        (manifestRequest apiBaseURL ns repo pkg.version authH) :=
      Or.inr ⟨authH, tr0, heq, rfl⟩
    split at hr
    · rcases List.mem_append.mp hr with h | h
      · exact hmem r h
      · simp at h
        subst h
        exact hreq
    · rename_i resp henv
      rcases List.mem_append.mp hr with h | h
      · exact hmem r h
      · rcases List.mem_cons.mp h with h2 | h2
        · subst h2
          exact hreq
        · exact handleManifestResponse_requests env apiBaseURL ns repo pkg.version
            serverName resp r h2

/-- A 200 response with a decodable body hands over to the manifest-list
handling. -/
theorem handleManifestResponse_200 (env : Env) (api ns repo tag serverName : String)
    (resp : Response) (manifest : OCIManifest)
    (h200 : resp.status = 200) (hdec : resp.body.asManifest = some manifest) :
    handleManifestResponse env api ns repo tag serverName resp =
      handleManifest env api ns repo tag serverName manifest := by
  unfold handleManifestResponse
  rw [if_neg (by simp [h200]), if_neg (by simp [h200]), if_neg (by simp [h200]), hdec]

/-- An empty config digest is the missing-digest error (no fetch). -/
theorem withConfigDigest_empty_eq (env : Env) (api ns repo tag serverName : String) :
    withConfigDigest env api ns repo tag serverName "" =
      (.error (.configDigestMissing ns repo tag), []) := by
  unfold withConfigDigest
  rw [if_pos rfl]

/-- A non-empty config digest with a successful blob fetch hands the
labels to the ownership check. -/
theorem withConfigDigest_ok_eq (env : Env) (api ns repo tag serverName d : String)
    (cfg : OCIImageConfig) (trc : List Request)
    (hd : d ≠ "") (hcfg : getImageConfig env api ns repo d = (.ok cfg, trc)) :
    withConfigDigest env api ns repo tag serverName d =
      (checkOwnershipLabel cfg.labels serverName ns repo tag, trc) := by
  unfold withConfigDigest
  rw [if_neg hd]
  simp [hcfg]

/-- A successful `getSpecificManifest` issued exactly one
digest-addressed manifest request, possibly preceded by token
requests. -/
theorem getSpecificManifest_ok_shape (env : Env) (api ns repo digest : String)
    (sm : OCIManifest) (trs : List Request)
    (h : getSpecificManifest env api ns repo digest = (.ok sm, trs)) :
    ∃ pre authH, trs = pre ++ [specificManifestRequest api ns repo digest authH] ∧
      ∀ r ∈ pre, r = authTokenRequest ns repo := by
  unfold getSpecificManifest at h
  split at h
  · rename_i e tr heq
    simp at h
  · rename_i authH tr heq
    have hpre : ∀ r ∈ tr, r = authTokenRequest ns repo := by
      intro r hr
      exact authorizationFor_trace env api ns repo r (by rw [heq]; exact hr)
    split at h
    · rename_i msg henv
      simp at h
    · rename_i resp henv
      split at h
      · simp at h
      · split at h
        · rename_i hdec
          simp at h
        · rename_i m hdec
          have htr : trs = tr ++ [specificManifestRequest api ns repo digest authH] :=
            (congrArg Prod.snd h).symm
          exact ⟨tr, authH, htr, hpre⟩

/-- The trace of `ValidateOCI` starts with the trace of the
authentication step. -/
theorem ValidateOCI_trace_decomp (env : Env) (pkg : Package)
    (serverName ns repo apiBaseURL : String)
    (hres : resolveRegistry pkg.registryBaseURL = .ok apiBaseURL)
    (hparse : parseImageReference pkg.identifier = .ok (ns, repo)) :
    ∃ rest, (ValidateOCI env pkg serverName).2 =
      (authorizationFor env apiBaseURL ns repo).2 ++ rest := by
  simp only [ValidateOCI, hres, hparse]
  cases hA : authorizationFor env apiBaseURL ns repo with
  | mk res tr =>
    cases res with
    | error e => exact ⟨[], by simp⟩
    | ok authH =>
      cases henv : env (manifestRequest apiBaseURL ns repo pkg.version authH) with
      | error msg =>
        exact ⟨[manifestRequest apiBaseURL ns repo pkg.version authH], by simp [henv]⟩
      | ok resp =>
        exact ⟨manifestRequest apiBaseURL ns repo pkg.version authH ::
          (handleManifestResponse env apiBaseURL ns repo pkg.version serverName resp).2,
          by simp [henv]⟩

/-- Claim C3: a decoded top-level manifest with a non-empty platform
list leads to exactly one further manifest fetch, addressed by the first
entry's digest, whose config digest is then used; an empty platform list
uses the top-level manifest's own config digest; an empty resulting
digest is the unable-to-determine error naming the reference. -/
theorem C3_manifest_list_indirection (env : Env) (pkg : Package)
    (serverName ns repo apiBaseURL : String) (authH : Option String)
    (tr0 : List Request) (resp : Response) (manifest : OCIManifest)
    (hres : resolveRegistry pkg.registryBaseURL = .ok apiBaseURL)
    (hparse : parseImageReference pkg.identifier = .ok (ns, repo))
    (hauth : authorizationFor env apiBaseURL ns repo = (.ok authH, tr0))
    (hresp : env (manifestRequest apiBaseURL ns repo pkg.version authH) = .ok resp)
    (h200 : resp.status = 200)
    (hdec : resp.body.asManifest = some manifest) :
    (∀ entry rest, manifest.manifests = entry :: rest →
      ∀ sm trs, getSpecificManifest env apiBaseURL ns repo entry.digest = (.ok sm, trs) →
        (∃ pre authH2,
           trs = pre ++ [specificManifestRequest apiBaseURL ns repo entry.digest authH2] ∧
           ∀ r ∈ pre, r = authTokenRequest ns repo) ∧
        (sm.config.digest = "" →
          ValidateOCI env pkg serverName =
            (.error (.configDigestMissing ns repo pkg.version),
             tr0 ++ manifestRequest apiBaseURL ns repo pkg.version authH :: trs)) ∧
        (∀ cfg trc, sm.config.digest ≠ "" →
          getImageConfig env apiBaseURL ns repo sm.config.digest = (.ok cfg, trc) →
          ValidateOCI env pkg serverName =
            (checkOwnershipLabel cfg.labels serverName ns repo pkg.version,
             tr0 ++ manifestRequest apiBaseURL ns repo pkg.version authH :: (trs ++ trc)))) ∧
    (manifest.manifests = [] →
      (manifest.config.digest = "" →
        ValidateOCI env pkg serverName =
          (.error (.configDigestMissing ns repo pkg.version),
           tr0 ++ [manifestRequest apiBaseURL ns repo pkg.version authH])) ∧
      (∀ cfg trc, manifest.config.digest ≠ "" →
        getImageConfig env apiBaseURL ns repo manifest.config.digest = (.ok cfg, trc) →
        ValidateOCI env pkg serverName =
          (checkOwnershipLabel cfg.labels serverName ns repo pkg.version,
           tr0 ++ manifestRequest apiBaseURL ns repo pkg.version authH :: trc))) ∧
    containsSubstr (render (.configDigestMissing ns repo pkg.version))
      (ns ++ "/" ++ repo ++ ":" ++ pkg.version) = true := by
  have key := ValidateOCI_reduction env pkg serverName ns repo apiBaseURL authH tr0 resp
    hres hparse hauth hresp
  have hHMR := handleManifestResponse_200 env apiBaseURL ns repo pkg.version serverName
    resp manifest h200 hdec
  refine ⟨?_, ?_, ?_⟩
  · intro entry rest hm sm trs hspec
    have hcons := handleManifest_cons_eq env apiBaseURL ns repo pkg.version serverName
      manifest entry rest hm
    refine ⟨getSpecificManifest_ok_shape env apiBaseURL ns repo entry.digest sm trs hspec,
      ?_, ?_⟩
    · intro hd0
      have hman : handleManifest env apiBaseURL ns repo pkg.version serverName manifest =
          (.error (.configDigestMissing ns repo pkg.version), trs) := by
        rw [hcons]
        simp [hspec, hd0, withConfigDigest_empty_eq]
      rw [key, hHMR, hman]
    · intro cfg trc hdne hcfg
      have hman : handleManifest env apiBaseURL ns repo pkg.version serverName manifest =
          (checkOwnershipLabel cfg.labels serverName ns repo pkg.version, trs ++ trc) := by
        rw [hcons]
        simp [hspec, withConfigDigest_ok_eq env apiBaseURL ns repo pkg.version serverName
          sm.config.digest cfg trc hdne hcfg]
      rw [key, hHMR, hman]
  · intro hm0
    have hnil := handleManifest_nil_eq env apiBaseURL ns repo pkg.version serverName
      manifest hm0
    constructor
    · intro hd0
      have hman : handleManifest env apiBaseURL ns repo pkg.version serverName manifest =
          (.error (.configDigestMissing ns repo pkg.version), []) := by
        rw [hnil, hd0, withConfigDigest_empty_eq]
      rw [key, hHMR, hman]
    · intro cfg trc hdne hcfg
      have hman : handleManifest env apiBaseURL ns repo pkg.version serverName manifest =
          (checkOwnershipLabel cfg.labels serverName ns repo pkg.version, trc) := by
        rw [hnil, withConfigDigest_ok_eq env apiBaseURL ns repo pkg.version serverName
          manifest.config.digest cfg trc hdne hcfg]
      rw [key, hHMR, hman]
  · exact containsSubstr_of_parts _ "unable to determine image config digest for '" _ "'"
      (by apply String.ext; simp [render, data_append])

/-- Claim C5: only the Docker Hub family authenticates.  At any other
resolved origin every request carries no Authorization header; at the
Docker Hub origin the first request issued is the unauthenticated GET to
the token endpoint whose URL carries the pull scope, and every other
request carries a bearer Authorization header. -/
theorem C5_auth_strategy (env : Env) (pkg : Package)
    (serverName ns repo apiBaseURL : String)
    (hres : resolveRegistry pkg.registryBaseURL = .ok apiBaseURL)
    (hparse : parseImageReference pkg.identifier = .ok (ns, repo)) :
    (apiBaseURL ≠ dockerIoAPIBaseURL →
      ∀ r ∈ (ValidateOCI env pkg serverName).2, r.authorization = none) ∧
    (apiBaseURL = dockerIoAPIBaseURL →
      (∃ rest, (ValidateOCI env pkg serverName).2 = authTokenRequest ns repo :: rest) ∧
      (authTokenRequest ns repo).authorization = none ∧
      containsSubstr (authTokenRequest ns repo).url
        ("repository:" ++ ns ++ "/" ++ repo ++ ":pull") = true ∧
      ∀ r ∈ (ValidateOCI env pkg serverName).2,
        r = authTokenRequest ns repo ∨
        ∃ t, r.authorization = some ("Bearer " ++ t)) := by
  constructor
  · intro hne r hr
    rcases ValidateOCI_requests env pkg serverName ns repo apiBaseURL hres hparse r hr with
      h | ⟨authH, tr, hA, hAuth⟩
    · rw [h]; rfl
    · have h3 := (authorizationFor_anon env apiBaseURL ns repo hne).symm.trans hA
      have h4 : (none : Option String) = authH := by
        have h5 := congrArg Prod.fst h3
        injection h5
      rw [hAuth, ← h4]
  · intro hdock
    subst hdock
    refine ⟨?_, rfl, ?_, ?_⟩
    · obtain ⟨rest, hdecomp⟩ := ValidateOCI_trace_decomp env pkg serverName ns repo
        dockerIoAPIBaseURL hres hparse
      refine ⟨rest, ?_⟩
      rw [hdecomp, authorizationFor_docker_trace env ns repo]
      rfl
    · apply containsSubstr_of_parts2 _
        "https://auth.docker.io/token?service=registry.docker.io&scope="
      apply String.ext
      have hsplit :
          ("https://auth.docker.io/token?service=registry.docker.io&scope=repository:" : String).data =
          ("https://auth.docker.io/token?service=registry.docker.io&scope=" : String).data ++
          ("repository:" : String).data := by decide
      simp [authTokenRequest, dockerAuthURL, data_append, hsplit]
    · intro r hr
      rcases ValidateOCI_requests env pkg serverName ns repo dockerIoAPIBaseURL hres hparse
        r hr with h | ⟨authH, tr, hA, hAuth⟩
      · exact Or.inl h
      · obtain ⟨t, ht⟩ := authorizationFor_docker_ok env ns repo authH tr hA
        exact Or.inr ⟨t, by rw [hAuth, ht]⟩

/-- Witness for C3: the multi-arch indirection end-to-end on a mock
registry. -/
theorem C3_witness :
    ValidateOCI multiArchEnv ghcrPkg "com.example/x" =
      (checkOwnershipLabel [(serverNameLabelKey, "com.example/x")] "com.example/x"
         "foo" "bar" "1.0",
       [] ++ manifestRequest "https://ghcr.io" "foo" "bar" "1.0" none ::
         ([specificManifestRequest "https://ghcr.io" "foo" "bar" "sha256:d1" none] ++
          [configRequest "https://ghcr.io" "foo" "bar" "sha256:c1" none])) :=
  (((C3_manifest_list_indirection multiArchEnv ghcrPkg "com.example/x" "foo" "bar"
      "https://ghcr.io" none [] ⟨200, ⟨some ⟨[⟨"sha256:d1"⟩], ⟨""⟩⟩, none, none⟩⟩
      ⟨[⟨"sha256:d1"⟩], ⟨""⟩⟩ (by decide) (by decide) (by decide) (by decide) rfl rfl).1
    ⟨"sha256:d1"⟩ [] rfl ⟨[], ⟨"sha256:c1"⟩⟩
    [specificManifestRequest "https://ghcr.io" "foo" "bar" "sha256:d1" none]
    (by decide)).2.2
    ⟨[(serverNameLabelKey, "com.example/x")]⟩
    [configRequest "https://ghcr.io" "foo" "bar" "sha256:c1" none]
    (by decide) (by decide))

/-- Witness for C5: the one manifest request a non-Docker run issues
carries no Authorization header. -/
theorem C5_witness :
    (manifestRequest "https://ghcr.io" "foo" "bar" "1.0" none).authorization = none :=
  (C5_auth_strategy rateLimitEnv ghcrPkg "x" "foo" "bar" "https://ghcr.io"
    (by decide) (by decide)).1 (by decide) _ (by decide)

/-- Claim C8: an empty `registryBaseURL` behaves identically to the
default public registry base URL, both at resolution and through the
whole of `ValidateOCI`. -/
theorem C8_empty_base_is_default (env : Env) (identifier version serverName : String) :
    resolveRegistry "" = resolveRegistry RegistryURLDocker ∧
    ValidateOCI env ⟨"", identifier, version⟩ serverName =
      ValidateOCI env ⟨RegistryURLDocker, identifier, version⟩ serverName :=
  ⟨rfl, rfl⟩

end Registries

